import Mathlib

/-!
# Verification of the BitTorrent client core

A shallow embedding of the peer-wire message framer, the download
orchestrator's piece loop, the handshake construction, the tracker
URL-encoding and the bencode decoder of this repository, together with
theorems settling the specification's claims against it.

Machine integers (`u8`, `u32`, `usize`) are embedded as `Nat`; byte
sequences as `List Nat`.  Fallible Rust code returns `Except`; a Rust
`panic!` (or an out-of-bounds slice/index) is an `Except.error` carrying
the panic text.
-/

/- ## Peer-wire messages (src/peer_message.rs) -/

/-- `MessageTag` (peer_message.rs lines 15–25): the nine peer-wire
message kinds, with wire values 0–8. -/
inductive MessageTag
  | choke
  | unchoke
  | interested
  | notInterested
  | haveMsg
  | bitfield
  | request
  | piece
  | cancel
deriving DecidableEq, Repr

/-- The wire byte of a tag (`MessageTag as u8`, discriminants 0–8). -/
def MessageTag.toByte : MessageTag → Nat
  | .choke => 0
  | .unchoke => 1
  | .interested => 2
  | .notInterested => 3
  | .haveMsg => 4
  | .bitfield => 5
  | .request => 6
  | .piece => 7
  | .cancel => 8

/-- The byte-to-tag match used by `TryFrom<u8> for MessageTag`
(peer_message.rs lines 30–43) and inline by `Message::from` and
`MessageFramer::decode`: bytes 0–8 map to a tag, anything else is
rejected. -/
def MessageTag.fromByte : Nat → Option MessageTag
  | 0 => some .choke
  | 1 => some .unchoke
  | 2 => some .interested
  | 3 => some .notInterested
  | 4 => some .haveMsg
  | 5 => some .bitfield
  | 6 => some .request
  | 7 => some .piece
  | 8 => some .cancel
  | _ => none

/-- `Message` (peer_message.rs lines 7–10): a tag and a payload. -/
structure Message where
  tag : MessageTag
  payload : List Nat
deriving DecidableEq, Repr

/-- `u32::to_be_bytes`: the four big-endian bytes of a 32-bit value
(wrapping semantics: each byte only depends on `n % 2^32`). -/
def u32_to_be (n : Nat) : List Nat :=
  [n / 16777216 % 256, n / 65536 % 256, n / 256 % 256, n % 256]

/-- `u32::from_be_bytes` on four bytes. -/
def u32_from_be (a b c d : Nat) : Nat :=
  ((a * 256 + b) * 256 + c) * 256 + d

/-- `Message::new_request` (peer_message.rs lines 96–106): a `Request`
message whose payload is `index | begin | length`, each four big-endian
bytes. -/
def Message.new_request (index begin_ length : Nat) : Message :=
  ⟨.request, u32_to_be index ++ u32_to_be begin_ ++ u32_to_be length⟩

/-- `Message::read_block` (peer_message.rs lines 108–114): on a `Piece`
message it returns `self.payload[9..]`; on any other tag it bails with
"Unexpected message".  The Rust slice `payload[9..]` panics when the
payload holds fewer than 9 bytes, embedded here as the
"slice index out of range" error. -/
def Message.read_block (m : Message) : Except String (List Nat) :=
  match m.tag with
  | .piece =>
      if 9 ≤ m.payload.length then .ok (m.payload.drop 9)
      else .error "slice index out of range"
  | _ => .error "Unexpected message"

/-- `Message::from` (peer_message.rs lines 70–94).  `Ok none` embeds the
Rust `None` return (fewer than 4 bytes); `.error` embeds a panic: the
out-of-bounds access `value[4]` when the input has exactly 4 bytes, and
`panic!("invalid tag")` for a tag byte outside `0..=8`.  On success the
returned `Nat` is the declared length read from the first four bytes,
and the payload is `value[5..]`. -/
def Message.fromBytes (value : List Nat) : Except String (Option (Message × Nat)) :=
  if value.length < 4 then .ok none
  else if value.length = 4 then .error "index out of bounds"
  else
    let length := u32_from_be (value.getD 0 0) (value.getD 1 0) (value.getD 2 0) (value.getD 3 0)
    match MessageTag.fromByte (value.getD 4 0) with
    | none => .error "invalid tag"
    | some tag => .ok (some (⟨tag, value.drop 5⟩, length))

/-- `MAX` (peer_message.rs line 118): the 64 KiB frame-size bound. -/
def MAX : Nat := 1 <<< 16

/-- The two error constructions of the framer: the oversized-frame
rejection (`Frame of length {} is too large.`, built from the declared
length in `decode` and from the payload length in `encode`) and the
unknown-tag rejection (`Unknown message type {}.`). -/
inductive FramerError
  | frameTooLarge (length : Nat)
  | unknownTag (tag : Nat)
deriving DecidableEq, Repr

/-- `MessageFramer::decode` (peer_message.rs lines 124–199) as a function
from the buffered bytes to the decode outcome and the bytes left in the
buffer.  The cons pattern `a :: b :: c :: d :: rest` is the
`src.len() >= 4` case; `rest = []` is `src.len() < 5`;
`rest.length < length` is `src.len() < 4 + length`; the extracted data
`src[5..4 + length]` is `(rest.drop 1).take (length - 1)` (guarded by
`src.len() > 5` exactly as in the source); `src.advance(4 + length)`
leaves `rest.drop length`.  A zero declared length is a keep-alive: the
four bytes are discarded and decoding recurses on the rest. -/
def MessageFramer.decode : List Nat → Except FramerError (Option Message × List Nat)
  | a :: b :: c :: d :: rest =>
    let length := u32_from_be a b c d
    if length = 0 then MessageFramer.decode rest
    else if rest = [] then .ok (none, a :: b :: c :: d :: rest)
    else if length > MAX then .error (.frameTooLarge length)
    else if rest.length < length then .ok (none, a :: b :: c :: d :: rest)
    else
      match MessageTag.fromByte (rest.headD 0) with
      | none => .error (.unknownTag (rest.headD 0))
      | some tag =>
          let data := if 1 < rest.length then (rest.drop 1).take (length - 1) else []
          .ok (some ⟨tag, data⟩, rest.drop length)
  | src => .ok (none, src)

/-- `MessageFramer::encode` (peer_message.rs lines 205–226): reject a
message whose framed size `payload.len() + 1` exceeds `MAX` without
touching `dst`; otherwise append the big-endian length prefix
`payload.len() as u32 + 1`, the tag byte and the payload to `dst`. -/
def MessageFramer.encode (item : Message) (dst : List Nat) : Except FramerError (List Nat) :=
  if item.payload.length + 1 > MAX then .error (.frameTooLarge item.payload.length)
  else .ok (dst ++ u32_to_be (item.payload.length + 1) ++ [item.tag.toByte] ++ item.payload)

/- ## Torrent metainfo and the download orchestrator (src/torrent.rs) -/

/-- `Info` (torrent.rs lines 27–47): the typed info dictionary.  `pieces`
is the concatenation of 20-byte SHA-1 hashes. -/
structure Info where
  name : String
  length : Nat
  piece_length : Nat
  pieces : List Nat
deriving DecidableEq, Repr

/-- Modelled from the spec: `BLOCK_MAX` is declared in the crate root,
which is not among the provided sources; the spec fixes the block size
at 16 KiB ("block_size (16 KiB default)", "pick
block_size = min(16 KiB, remaining_bytes)"). -/
def BLOCK_MAX : Nat := 16384

/-- The fixed client peer id `PEER_ID` (torrent.rs line 24), the ASCII
bytes of `00112233445566778899`. -/
def PEER_ID : List Nat := "00112233445566778899".toList.map Char.toNat

/-- The expected length of piece `piece_index`, exactly the
`remaining_bytes` initialisation of `Torrent::download_piece`
(torrent.rs lines 192–203): the full `piece_length` for every piece
before the last (`piece_index < pieces.len() / 20 - 1`), and for the
last piece `length % piece_length`, or `piece_length` when that
remainder is zero.  The `usize` subtraction `pieces.len() / 20 - 1` is
embedded as truncating `Nat` subtraction; the claims only use torrents
with `pieces.len()` a positive multiple of 20, where no underflow
occurs. -/
def expected_piece_length (info : Info) (piece_index : Nat) : Nat :=
  if piece_index < info.pieces.length / 20 - 1 then
    info.piece_length
  else
    let last_len := info.length % info.piece_length
    if last_len = 0 then info.piece_length else last_len

/-- The request/response loop of `Torrent::download_piece` (torrent.rs
lines 205–233), with the stream of messages the peer sends back embedded
as the list `responses` (an empty list is `peer.next()` yielding
nothing, which the `if let Some(Ok(message))` silently falls through,
exactly like a non-`Piece` message).  Each iteration shrinks
`block_length` to `remaining_bytes` when fewer bytes remain, sends one
request, reads one message, appends `message.payload[8..]` to
`piece_data` only when the tag is `Piece`, and then decrements
`remaining_bytes` and increments `block_index` unconditionally.  The
fuel argument only bounds the iteration count; every run in this file
supplies fuel at least the initial `remaining_bytes`, which is enough
because each iteration removes at least one remaining byte. -/
def download_loop : Nat → List Message → Nat → Nat → Nat → List Nat → List Nat
  | 0, _, _, _, _, piece_data => piece_data
  | fuel + 1, responses, remaining_bytes, block_length, block_index, piece_data =>
    if remaining_bytes = 0 then piece_data
    else
      let bl := if remaining_bytes < block_length then remaining_bytes else block_length
      match responses with
      | [] =>
          download_loop fuel [] (remaining_bytes - bl) bl (block_index + 1) piece_data
      | message :: rest =>
          download_loop fuel rest (remaining_bytes - bl) bl (block_index + 1)
            (if message.tag = MessageTag.piece then piece_data ++ message.payload.drop 8
             else piece_data)

/-- The piece buffer produced by the request loop of
`Torrent::download_piece` for a piece of expected length `expected`,
against a peer answering with `responses`: the loop starts with
`remaining_bytes = expected`, `block_length = BLOCK_MAX`,
`block_index = 0` and an empty buffer. -/
def download_piece_data (responses : List Message) (expected : Nat) : List Nat :=
  download_loop expected responses expected BLOCK_MAX 0 []

/-- The ASCII byte sequence of `"BitTorrent protocol"`. -/
def protocol_bytes : List Nat := "BitTorrent protocol".toList.map Char.toNat

/-- The 68-byte handshake written by `Torrent::make_handshake`
(torrent.rs lines 107–141): the length byte 19, the 19 protocol-name
bytes, eight zero reserved bytes, the 20-byte info hash and the 20-byte
peer id. -/
def handshake_message (info_hash peer_id : List Nat) : List Nat :=
  [19] ++ protocol_bytes ++ List.replicate 8 0 ++ info_hash ++ peer_id

/-- The lookup `hex::encode` performs per nibble, over the lowercase
alphabet `0123456789abcdef`. -/
def hexDigit (n : Nat) : Char := "0123456789abcdef".toList.getD n '0'

/-- `hex::encode`: each byte becomes its two lowercase hex digits, high
nibble first. -/
def hex_encode (bytes : List Nat) : List Char :=
  bytes.flatMap fun b => [hexDigit (b / 16), hexDigit (b % 16)]

/-- The value returned by `Torrent::peer_handshake` (torrent.rs lines
143–150) once the 68-byte remote handshake sits in `buffer`:
`hex::encode(&buffer[48..])`. -/
def peer_handshake_reply (buffer : List Nat) : String :=
  String.mk (hex_encode (buffer.drop 48))

/-- The percent-inserting loop of `Torrent::info_hash_urlencoded`
(torrent.rs lines 75–87): walk the hex string with its index, pushing
`%` before every even-indexed character. -/
def urlencode_chars : Nat → List Char → List Char
  | _, [] => []
  | i, c :: cs => (if i % 2 = 0 then ['%', c] else [c]) ++ urlencode_chars (i + 1) cs

/-- `Torrent::info_hash_urlencoded`, parameterised by the 20 raw bytes
of the info hash (in the source the hash itself is produced by the
external `sha1` crate over the re-encoded info dictionary, and
`info_hash_hex` is its `hex::encode`): percent signs are inserted into
the lowercase hex string at every even index. -/
def info_hash_urlencoded_of (hash_bytes : List Nat) : String :=
  String.mk (urlencode_chars 0 (hex_encode hash_bytes))

/- ## Bencode decoder (src/bendecoder.rs) -/

/-- `Bencode` (bendecoder.rs lines 7–12): the four bencoding value
kinds.  The `BTreeMap<String, Bencode>` is embedded as an association
list kept sorted by key. -/
inductive Bencode
  | integer (i : Int)
  | string (s : String)
  | list (l : List Bencode)
  | dictionary (entries : List (String × Bencode))

/-- The outcome of running `decode_bencoded_value` under a fuel bound:
`ok` is a normal return of the decoded value and the unconsumed
remainder, `panicked` embeds every Rust panic of the function (the
`unwrap` on empty input, the `panic!("Unhandled encoded value")`
fall-through, and out-of-bounds string slices), and `outOfFuel` means
the computation did not finish within the given number of recursive
calls and loop iterations. -/
inductive DecodeResult
  | ok (v : Bencode) (rest : List Char)
  | panicked
  | outOfFuel

/-- `str::split_once`: split at the first occurrence of `sep`, which is
consumed. -/
def splitOnce (sep : Char) : List Char → Option (List Char × List Char)
  | [] => none
  | c :: cs =>
      if c = sep then some ([], cs)
      else (splitOnce sep cs).map fun p => (c :: p.1, p.2)

/-- `str::parse::<usize>` restricted to plain digit strings: at least
one character, all decimal digits (the claims never feed it a leading
`+`). -/
def parse_nat (s : List Char) : Option Nat :=
  if s ≠ [] ∧ s.all Char.isDigit then
    some (s.foldl (fun acc c => acc * 10 + (c.toNat - '0'.toNat)) 0)
  else none

/-- `str::parse::<i64>`: an optional sign followed by digits.  The i64
overflow failure is not modelled; no claim exercises it. -/
def parse_i64 : List Char → Option Int
  | '-' :: rest => (parse_nat rest).map fun n => -(n : Int)
  | '+' :: rest => (parse_nat rest).map fun n => (n : Int)
  | s => (parse_nat s).map fun n => (n : Int)

/-- `BTreeMap::insert`: place `(k, v)` into an association list sorted
by key, replacing an existing binding of `k`. -/
def insertSorted (k : String) (v : Bencode) :
    List (String × Bencode) → List (String × Bencode)
  | [] => [(k, v)]
  | (k', v') :: t =>
    match compare k k' with
    | .lt => (k, v) :: (k', v') :: t
    | .eq => (k, v) :: t
    | .gt => (k', v') :: insertSorted k v t

/-- The three control positions of `decode_bencoded_value`
(bendecoder.rs lines 46–106): decoding one value, and the bodies of the
`while` loops of the `'l'` and `'d'` branches with their accumulators. -/
inductive DecodeTask
  | value (s : List Char)
  | listLoop (values : List Bencode) (rest : List Char)
  | dictLoop (values : List (String × Bencode)) (rest : List Char)

/-- `decode_bencoded_value` (bendecoder.rs lines 46–106) as a
fuel-indexed interpreter over `DecodeTask`; one unit of fuel is spent on
every recursive call and every loop iteration, so a run of the Rust
function that terminates corresponds to a sufficiently large fuel.
`value s`: empty input panics (`chars().next().unwrap()`); `'i'` splits
the remainder at the first `'e'` and parses an `i64`, any failure
falling through to the `panic!`; `'l'` and `'d'` enter their loops on
the input after the marker; a digit splits the whole input at `':'`,
parses the length and slices that many characters (an overlong length
is the Rust slice panic); anything else panics.  `listLoop`: an empty
remainder makes the final `&rest[1..]` panic, a leading `'e'` returns
the accumulated list, otherwise one value is decoded and pushed.
`dictLoop` (lines 80–92): key and value are decoded in sequence; a
`String` key is inserted and the loop advances to the remainder, while
any other key kind leaves `rest` unchanged — the loop retries the very
same bytes. -/
def benc_run : Nat → DecodeTask → DecodeResult
  | 0, _ => .outOfFuel
  | fuel + 1, task =>
    match task with
    | .value s =>
      match s with
      | [] => .panicked
      | c :: rest0 =>
        if c = 'i' then
          match splitOnce 'e' rest0 with
          | some (digits, rest) =>
            match parse_i64 digits with
            | some n => .ok (.integer n) rest
            | none => .panicked
          | none => .panicked
        else if c = 'l' then benc_run fuel (.listLoop [] rest0)
        else if c = 'd' then benc_run fuel (.dictLoop [] rest0)
        else if '0' ≤ c ∧ c ≤ '9' then
          match splitOnce ':' (c :: rest0) with
          | some (lenStr, rest) =>
            match parse_nat lenStr with
            | some len =>
                if len ≤ rest.length then
                  .ok (.string (String.mk (rest.take len))) (rest.drop len)
                else .panicked
            | none => .panicked
          | none => .panicked
        else .panicked
    | .listLoop values rest =>
      match rest with
      | [] => .panicked
      | c :: cs =>
        if c = 'e' then .ok (.list values) cs
        else
          match benc_run fuel (.value (c :: cs)) with
          | .ok v rem => benc_run fuel (.listLoop (values ++ [v]) rem)
          | r => r
    | .dictLoop values rest =>
      match rest with
      | [] => .panicked
      | c :: cs =>
        if c = 'e' then .ok (.dictionary values) cs
        else
          match benc_run fuel (.value (c :: cs)) with
          | .ok key rem =>
            match benc_run fuel (.value rem) with
            | .ok v rem2 =>
              match key with
              | .string s => benc_run fuel (.dictLoop (insertSorted s v values) rem2)
              | _ => benc_run fuel (.dictLoop values (c :: cs))
            | r => r
          | r => r

/-- `decode_bencoded_value` itself: run the interpreter on the whole
input. -/
def decode_bencoded_value (fuel : Nat) (s : List Char) : DecodeResult :=
  benc_run fuel (.value s)

/- ## Basic helper lemmas -/

/-- One-step unfolding of `MessageFramer.decode` on a buffer of at least
four bytes. -/
theorem MessageFramer.decode_cons (a b c d : Nat) (rest : List Nat) :
    MessageFramer.decode (a :: b :: c :: d :: rest) =
      (let length := u32_from_be a b c d
       if length = 0 then MessageFramer.decode rest
       else if rest = [] then .ok (none, a :: b :: c :: d :: rest)
       else if length > MAX then .error (.frameTooLarge length)
       else if rest.length < length then .ok (none, a :: b :: c :: d :: rest)
       else
         match MessageTag.fromByte (rest.headD 0) with
         | none => .error (.unknownTag (rest.headD 0))
         | some tag =>
             let data := if 1 < rest.length then (rest.drop 1).take (length - 1) else []
             .ok (some ⟨tag, data⟩, rest.drop length)) := rfl

theorem MessageTag.fromByte_toByte (t : MessageTag) :
    MessageTag.fromByte t.toByte = some t := by
  cases t <;> rfl

theorem u32_from_be_to_be (n : Nat) (h : n < 4294967296) :
    u32_from_be (n / 16777216 % 256) (n / 65536 % 256) (n / 256 % 256) (n % 256) = n := by
  unfold u32_from_be
  omega

/- ## Claim C1 -/

/-- Claim C1: the claim states that a non-`Piece` message received while
awaiting a piece response leaves the request pending — the remaining-byte
count and block index advancing only on a `Piece` message — so that on
loop completion the buffer length equals the expected piece length.  The
code instead decrements `remaining_bytes` and increments `block_index`
unconditionally (torrent.rs lines 231–232 sit outside the
`if message.tag == MessageTag::Piece` guard): here, for a torrent whose
only piece has expected length 2, a single `Choke` response makes the
loop run to completion with an empty piece buffer, of length 0 rather
than 2. -/
theorem download_loop_skips_block_on_non_piece :
    expected_piece_length ⟨"f", 2, 2, List.replicate 20 0⟩ 0 = 2 ∧
    download_piece_data [⟨MessageTag.choke, []⟩] 2 = [] ∧
    (download_piece_data [⟨MessageTag.choke, []⟩] 2).length ≠
      expected_piece_length ⟨"f", 2, 2, List.replicate 20 0⟩ 0 := by
  refine ⟨rfl, rfl, ?_⟩
  decide

/- ## Claim C2 -/

/-- Claim C2: for a torrent with a positive `piece_length` and `pieces`
a positive multiple of 20 bytes, the expected length computed for piece
`i` (the `remaining_bytes` initialisation of `download_piece`) is
`piece_length` for every `i` below `piece_count - 1`, and for the last
piece is `length % piece_length`, or `piece_length` when that remainder
is zero. -/
theorem expected_piece_length_spec (info : Info) (i : Nat)
    (hpl : 0 < info.piece_length)
    (hmul : info.pieces.length % 20 = 0)
    (hpos : 0 < info.pieces.length) :
    (i < info.pieces.length / 20 - 1 →
      expected_piece_length info i = info.piece_length) ∧
    (i = info.pieces.length / 20 - 1 →
      expected_piece_length info i =
        if info.length % info.piece_length = 0 then info.piece_length
        else info.length % info.piece_length) := by
  constructor
  · intro hi
    simp [expected_piece_length, hi]
  · intro hi
    have hlast : ¬ i < info.pieces.length / 20 - 1 := by omega
    simp [expected_piece_length, hlast]

/-- Witness for C2 at the spec's concrete examples: with
`length = 1000`, `piece_length = 400` and three pieces the expected
lengths are 400, 400 and 200; with `length = 900`, `piece_length = 300`
the last piece has expected length 300, not 0. -/
theorem expected_piece_length_spec_witness :
    expected_piece_length ⟨"f", 1000, 400, List.replicate 60 0⟩ 0 = 400 ∧
    expected_piece_length ⟨"f", 1000, 400, List.replicate 60 0⟩ 1 = 400 ∧
    expected_piece_length ⟨"f", 1000, 400, List.replicate 60 0⟩ 2 = 200 ∧
    expected_piece_length ⟨"f", 900, 300, List.replicate 60 0⟩ 2 = 300 := by
  refine ⟨?_, ?_, ?_, ?_⟩
  · exact (expected_piece_length_spec ⟨"f", 1000, 400, List.replicate 60 0⟩ 0
      (by decide) (by decide) (by decide)).1 (by decide)
  · exact (expected_piece_length_spec ⟨"f", 1000, 400, List.replicate 60 0⟩ 1
      (by decide) (by decide) (by decide)).1 (by decide)
  · exact ((expected_piece_length_spec ⟨"f", 1000, 400, List.replicate 60 0⟩ 2
      (by decide) (by decide) (by decide)).2 (by decide)).trans (by decide)
  · exact ((expected_piece_length_spec ⟨"f", 900, 300, List.replicate 60 0⟩ 2
      (by decide) (by decide) (by decide)).2 (by decide)).trans (by decide)

/- ## Claim C3 -/

/-- Claim C3: the claim states that `Message::read_block` on a `Piece`
message returns exactly `payload[8..]`.  The code returns
`payload[9..]` (peer_message.rs line 110), dropping the first block
byte: on the piece payload `index 0 | begin 0 | block [170, 187]` it
returns `[187]` while `payload[8..]` is `[170, 187]`.  The download
orchestrator itself appends `payload[8..]` (torrent.rs line 228), as the
third conjunct shows on the same message. -/
theorem read_block_drops_first_block_byte :
    Message.read_block ⟨MessageTag.piece, [0, 0, 0, 0, 0, 0, 0, 0, 170, 187]⟩ =
      .ok [187] ∧
    List.drop 8 [0, 0, 0, 0, 0, 0, 0, 0, 170, 187] = [170, 187] ∧
    download_piece_data [⟨MessageTag.piece, [0, 0, 0, 0, 0, 0, 0, 0, 170, 187]⟩] 2 =
      [170, 187] :=
  ⟨rfl, rfl, rfl⟩

/- ## Claim C4 -/

/-- Auxiliary to claim C4: the dictionary loop of
`decode_bencoded_value` never terminates on the remainder `i5ei3ee` of
the input `di5ei3ee`, whatever the accumulated map and however much fuel
it is given: the key decodes as the integer 5 (not a ByteString), so the
`_ => {}` arm leaves `rest` unchanged and the loop retries the same
bytes. -/
theorem dict_loop_stuck_on_nonstring_key (values : List (String × Bencode)) :
    ∀ fuel : Nat, benc_run fuel (.dictLoop values "i5ei3ee".toList) = .outOfFuel := by
  intro fuel
  induction fuel with
  | zero => rfl
  | succ m ih =>
    cases m with
    | zero => rfl
    | succ k => exact ih

/-- Claim C4: the claim states that a bencoded dictionary containing a
key that does not decode as a ByteString is a fatal decode error.  The
code instead loops forever: on `di5ei3ee` (a dictionary whose key is the
integer `i5e`) the non-`String` match arm does not advance `rest`
(bendecoder.rs line 90), so for every fuel bound the run neither returns
a value nor panics — `decode_bencoded_value` never signals any error on
this input. -/
theorem decode_nonstring_key_diverges :
    ∀ fuel : Nat, decode_bencoded_value fuel "di5ei3ee".toList = .outOfFuel := by
  intro fuel
  cases fuel with
  | zero => rfl
  | succ n => exact dict_loop_stuck_on_nonstring_key [] n

/- ## Claim C5 -/

/-- Claim C5: encoding any message whose framed size `payload.len() + 1`
is within the 64 KiB maximum with `MessageFramer::encode` and feeding
the produced bytes (with any trailing bytes) to `MessageFramer::decode`
yields `Some` message with the same tag and payload, consuming exactly
the encoded bytes and leaving the trailing bytes in the buffer. -/
theorem framer_encode_decode_round_trip (m : Message) (extra : List Nat)
    (h : m.payload.length + 1 ≤ MAX) :
    ∃ out, MessageFramer.encode m [] = .ok out ∧
      MessageFramer.decode (out ++ extra) = .ok (some m, extra) := by
  have hMAX : MAX = 65536 := rfl
  have hno : ¬ m.payload.length + 1 > MAX := by omega
  refine ⟨u32_to_be (m.payload.length + 1) ++ [m.tag.toByte] ++ m.payload, ?_, ?_⟩
  · simp [MessageFramer.encode, hno]
  · have hcons :
        (u32_to_be (m.payload.length + 1) ++ [m.tag.toByte] ++ m.payload) ++ extra =
          ((m.payload.length + 1) / 16777216 % 256) ::
            ((m.payload.length + 1) / 65536 % 256) ::
              ((m.payload.length + 1) / 256 % 256) ::
                ((m.payload.length + 1) % 256) ::
                  (m.tag.toByte :: (m.payload ++ extra)) := by
      simp [u32_to_be]
    rw [hcons, MessageFramer.decode_cons]
    have hbe :
        u32_from_be ((m.payload.length + 1) / 16777216 % 256)
            ((m.payload.length + 1) / 65536 % 256)
            ((m.payload.length + 1) / 256 % 256)
            ((m.payload.length + 1) % 256) = m.payload.length + 1 :=
      u32_from_be_to_be (m.payload.length + 1) (by omega)
    rw [hbe]
    have h0 : ¬ m.payload.length + 1 = 0 := by omega
    have hne : m.tag.toByte :: (m.payload ++ extra) ≠ [] := by simp
    have hlen : ¬ (m.tag.toByte :: (m.payload ++ extra)).length < m.payload.length + 1 := by
      simp
    simp only [if_neg h0, if_neg hne, hno, if_neg hlen, if_false, List.headD_cons,
      MessageTag.fromByte_toByte, if_neg (by omega : ¬ m.payload.length + 1 > MAX)]
    have hdata :
        (if 1 < (m.tag.toByte :: (m.payload ++ extra)).length then
            ((m.tag.toByte :: (m.payload ++ extra)).drop 1).take (m.payload.length + 1 - 1)
          else []) = m.payload := by
      rcases Nat.eq_zero_or_pos (m.payload.length + extra.length) with hz | hp
      · have hpay : m.payload = [] := List.length_eq_zero.mp (by omega)
        have hex : extra = [] := List.length_eq_zero.mp (by omega)
        simp [hpay, hex]
      · have h1 : 1 < (m.tag.toByte :: (m.payload ++ extra)).length := by
          simp
          omega
        rw [if_pos h1]
        simp [List.take_left']
    rw [hdata]
    have hdrop :
        (m.tag.toByte :: (m.payload ++ extra)).drop (m.payload.length + 1) = extra := by
      simp [List.drop_left']
    rw [hdrop]

/-- Witness for C5 at the spec's concrete frame: the request
`Request{index = 1, begin = 0, length = 16384}` built by `new_request`
round-trips through the framer, with nothing left in the buffer. -/
theorem framer_encode_decode_round_trip_witness :
    ∃ out, MessageFramer.encode (Message.new_request 1 0 16384) [] = .ok out ∧
      MessageFramer.decode (out ++ []) = .ok (some (Message.new_request 1 0 16384), []) :=
  framer_encode_decode_round_trip (Message.new_request 1 0 16384) [] (by decide)

/- ## Claim C6 -/

/-- Claim C6: a buffer beginning with a zero length prefix is a
keep-alive: `MessageFramer::decode` discards the four prefix bytes and
continues decoding the next frame from the same buffer, never surfacing
the keep-alive as a message — decoding the whole buffer equals decoding
the remainder after the four zero bytes. -/
theorem keep_alive_consumed (a b c d : Nat) (rest : List Nat)
    (h : u32_from_be a b c d = 0) :
    MessageFramer.decode (a :: b :: c :: d :: rest) = MessageFramer.decode rest := by
  rw [MessageFramer.decode_cons]
  simp [h]

/-- Witness for C6: a zero length prefix followed by a complete
`Bitfield` frame decodes exactly like the `Bitfield` frame alone. -/
theorem keep_alive_consumed_witness :
    MessageFramer.decode (0 :: 0 :: 0 :: 0 :: [0, 0, 0, 2, 5, 1]) =
      MessageFramer.decode [0, 0, 0, 2, 5, 1] :=
  keep_alive_consumed 0 0 0 0 [0, 0, 0, 2, 5, 1] (by decide)

/- ## Claim C7 -/

/-- Counterexample to claim C7: the claim quantifies over every decoder
buffer whose declared frame length exceeds the 64 KiB maximum, but the
oversized check sits after the `src.len() < 5` early return
(peer_message.rs lines 143–146 precede lines 150–155), so the four-byte
buffer `FF FF FF FF` — declared length 4294967295 — is not rejected:
decode returns `Ok(None)`, waiting for more data. -/
theorem oversized_4byte_buffer_not_rejected :
    u32_from_be 255 255 255 255 > MAX ∧
    MessageFramer.decode [255, 255, 255, 255] = .ok (none, [255, 255, 255, 255]) :=
  ⟨by decide, rfl⟩

/-- Claim C7 as amended: for every decoder buffer of at least five bytes
whose declared frame length exceeds the 64 KiB maximum,
`MessageFramer::decode` returns the fatal oversized-frame error without
reading the claimed payload (a buffer of exactly four bytes instead
returns `None`, awaiting more data); and `MessageFramer::encode` errors
on every message whose framed size `payload.len() + 1` exceeds the
maximum, writing nothing. -/
theorem oversized_frame_rejected (a b c d e : Nat) (rest : List Nat)
    (tag : MessageTag) (payload dst : List Nat)
    (hdec : u32_from_be a b c d > MAX)
    (henc : payload.length + 1 > MAX) :
    MessageFramer.decode (a :: b :: c :: d :: e :: rest) =
      .error (.frameTooLarge (u32_from_be a b c d)) ∧
    MessageFramer.encode ⟨tag, payload⟩ dst = .error (.frameTooLarge payload.length) := by
  have hMAX : MAX = 65536 := rfl
  constructor
  · rw [MessageFramer.decode_cons]
    have h0 : ¬ u32_from_be a b c d = 0 := by omega
    simp [h0, hdec]
  · simp [MessageFramer.encode, henc]

/-- Witness for the amended C7: a five-byte buffer declaring length
4294967295 is rejected as too large, and encoding a message with a
64 KiB payload (framed size 64 KiB + 1) is rejected. -/
theorem oversized_frame_rejected_witness :
    MessageFramer.decode (255 :: 255 :: 255 :: 255 :: 0 :: []) =
      .error (.frameTooLarge (u32_from_be 255 255 255 255)) ∧
    MessageFramer.encode ⟨MessageTag.choke, List.replicate 65536 0⟩ [] =
      .error (.frameTooLarge (List.replicate 65536 0).length) :=
  oversized_frame_rejected 255 255 255 255 0 [] MessageTag.choke (List.replicate 65536 0) []
    (by decide)
    (by rw [List.length_replicate]; decide)

/- ## Claim C8 -/

/-- Counterexample to claim C8: the claim states the urlencoding of a
20-byte all-zero hash is `%00` repeated 20 times *and* 40 characters in
total, but `%00` repeated 20 times is 60 characters: the code produces
the 60-character string, so the 40-character conjunct is false. -/
theorem urlencoded_zero_hash_sixty_chars :
    info_hash_urlencoded_of (List.replicate 20 0) =
      "%00%00%00%00%00%00%00%00%00%00%00%00%00%00%00%00%00%00%00%00" ∧
    (info_hash_urlencoded_of (List.replicate 20 0)).length = 60 ∧
    (info_hash_urlencoded_of (List.replicate 20 0)).length ≠ 40 := by
  refine ⟨rfl, rfl, ?_⟩
  decide

/-- Auxiliary to claim C8: walking the hex encoding of a byte list from
any even index inserts a `%` before exactly the two hex digits of each
byte. -/
theorem urlencode_chars_hex_encode (bytes : List Nat) :
    ∀ i : Nat, urlencode_chars (2 * i) (hex_encode bytes) =
      bytes.flatMap fun b => ['%', hexDigit (b / 16), hexDigit (b % 16)] := by
  induction bytes with
  | nil => intro i; rfl
  | cons b t ih =>
    intro i
    have h0 : (2 * i) % 2 = 0 := by omega
    have h1 : (2 * i + 1) % 2 = 1 := by omega
    show urlencode_chars (2 * i)
        (hexDigit (b / 16) :: hexDigit (b % 16) :: hex_encode t) = _
    rw [urlencode_chars, if_pos h0, urlencode_chars, if_neg (by omega : ¬ (2 * i + 1) % 2 = 0)]
    rw [show 2 * i + 1 + 1 = 2 * (i + 1) by ring, ih (i + 1)]
    simp

/-- Claim C8 as amended: `info_hash_urlencoded` percent-encodes every
byte of the hash as `%XX` over the lowercase hex alphabet (each byte
contributes a `%` and its two hex digits), and for a 20-byte all-zero
hash the result is `%00` repeated 20 times — 60 characters in total,
not 40. -/
theorem urlencoded_percent_per_byte :
    (∀ hash_bytes : List Nat,
      info_hash_urlencoded_of hash_bytes =
        String.mk (hash_bytes.flatMap fun b => ['%', hexDigit (b / 16), hexDigit (b % 16)])) ∧
    info_hash_urlencoded_of (List.replicate 20 0) =
      "%00%00%00%00%00%00%00%00%00%00%00%00%00%00%00%00%00%00%00%00" ∧
    (info_hash_urlencoded_of (List.replicate 20 0)).length = 60 := by
  refine ⟨?_, rfl, rfl⟩
  intro hash_bytes
  unfold info_hash_urlencoded_of
  congr 1
  simpa using urlencode_chars_hex_encode hash_bytes 0

/- ## Claim C9 -/

/-- Claim C9: for 20-byte info hash and peer id, the handshake written
by `make_handshake` is exactly 68 bytes: the length byte 19, the 19
bytes of "BitTorrent protocol", 8 zero reserved bytes, the 20-byte info
hash, then the 20-byte peer id; and `peer_handshake`, given the 68-byte
remote handshake it reads, surfaces exactly the buffer's last 20 bytes
(the remote peer id, hex-encoded) to the caller. -/
theorem handshake_message_layout (info_hash peer_id buffer : List Nat)
    (h1 : info_hash.length = 20) (h2 : peer_id.length = 20)
    (hb : buffer.length = 68) :
    (handshake_message info_hash peer_id).length = 68 ∧
    (handshake_message info_hash peer_id).take 1 = [19] ∧
    ((handshake_message info_hash peer_id).drop 1).take 19 = protocol_bytes ∧
    ((handshake_message info_hash peer_id).drop 20).take 8 = List.replicate 8 0 ∧
    ((handshake_message info_hash peer_id).drop 28).take 20 = info_hash ∧
    (handshake_message info_hash peer_id).drop 48 = peer_id ∧
    peer_handshake_reply buffer = String.mk (hex_encode (buffer.drop (buffer.length - 20))) ∧
    (buffer.drop (buffer.length - 20)).length = 20 := by
  have hp : protocol_bytes.length = 19 := rfl
  have hmsg : handshake_message info_hash peer_id =
      (([19] ++ protocol_bytes ++ List.replicate 8 0 ++ info_hash) ++ peer_id) := by
    simp [handshake_message]
  refine ⟨?_, ?_, ?_, ?_, ?_, ?_, ?_, ?_⟩
  · simp [handshake_message, hp, h1, h2]
  · rw [show handshake_message info_hash peer_id =
      ([19] ++ (protocol_bytes ++ List.replicate 8 0 ++ info_hash ++ peer_id)) by
        simp [handshake_message]]
    exact List.take_left' rfl
  · rw [show handshake_message info_hash peer_id =
      ([19] ++ ((protocol_bytes ++ (List.replicate 8 0 ++ info_hash ++ peer_id)))) by
        simp [handshake_message]]
    rw [List.drop_left' (by rfl : ([19] : List Nat).length = 1)]
    exact List.take_left' hp
  · rw [show handshake_message info_hash peer_id =
      (([19] ++ protocol_bytes) ++ (List.replicate 8 0 ++ (info_hash ++ peer_id))) by
        simp [handshake_message]]
    rw [List.drop_left' (by rfl : ([19] ++ protocol_bytes).length = 20)]
    exact List.take_left' rfl
  · rw [show handshake_message info_hash peer_id =
      (([19] ++ protocol_bytes ++ List.replicate 8 0) ++ (info_hash ++ peer_id)) by
        simp [handshake_message]]
    rw [List.drop_left' (by rfl : ([19] ++ protocol_bytes ++ List.replicate 8 0).length = 28)]
    exact List.take_left' h1
  · rw [hmsg, List.drop_left']
    simp [hp, h1]
  · rw [hb]
    rfl
  · simp [hb]

/-- Witness for C9: with the all-zero info hash, the repository's fixed
peer id and an arbitrary 68-byte remote handshake, the message is
68 bytes and ends in the peer id. -/
theorem handshake_message_layout_witness :
    (handshake_message (List.replicate 20 0) PEER_ID).length = 68 ∧
    (handshake_message (List.replicate 20 0) PEER_ID).drop 48 = PEER_ID :=
  ⟨(handshake_message_layout (List.replicate 20 0) PEER_ID (List.replicate 68 7)
      (by decide) (by decide) (by decide)).1,
   (handshake_message_layout (List.replicate 20 0) PEER_ID (List.replicate 68 7)
      (by decide) (by decide) (by decide)).2.2.2.2.2.1⟩

/- ## Claim C10 -/

/-- Bytes outside `0..=8` have no message tag. -/
theorem MessageTag.fromByte_gt_eight (n : Nat) (h : 8 < n) :
    MessageTag.fromByte n = none := by
  obtain ⟨k, rfl⟩ : ∃ k, n = k + 9 := ⟨n - 9, by omega⟩
  rfl

/-- Claim C10: `Message::from` returns `None` exactly when the input has
fewer than 4 bytes; on an input of exactly 4 bytes (such as a bare
keep-alive frame) the access `value[4]` is out of bounds and panics; and
on any longer input whose byte at index 4 is not in `0..=8` it panics
with "invalid tag" instead of returning `None` or an error value. -/
theorem message_from_partiality (value : List Nat) :
    (Message.fromBytes value = .ok none ↔ value.length < 4) ∧
    (value.length = 4 → Message.fromBytes value = .error "index out of bounds") ∧
    (4 < value.length → 8 < value.getD 4 0 →
      Message.fromBytes value = .error "invalid tag") := by
  refine ⟨⟨?_, ?_⟩, ?_, ?_⟩
  · intro h
    by_contra hge
    rw [Message.fromBytes, if_neg hge] at h
    by_cases h4 : value.length = 4
    · rw [if_pos h4] at h
      simp at h
    · rw [if_neg h4] at h
      rcases hfb : MessageTag.fromByte (value.getD 4 0) with _ | tag <;>
          rw [hfb] at h <;> simp at h
  · intro h
    simp [Message.fromBytes, h]
  · intro h
    simp [Message.fromBytes, h]
  · intro hgt htag
    have hlt : ¬ value.length < 4 := by omega
    have h4 : ¬ value.length = 4 := by omega
    rw [Message.fromBytes, if_neg hlt, if_neg h4, MessageTag.fromByte_gt_eight _ htag]

/-- Witness for C10: the 5-byte input with tag byte 9 panics with
"invalid tag"; the exact keep-alive frame `00 00 00 00` panics out of
bounds; a 2-byte input returns `None`. -/
theorem message_from_partiality_witness :
    Message.fromBytes [0, 0, 0, 1, 9] = .error "invalid tag" ∧
    Message.fromBytes [0, 0, 0, 0] = .error "index out of bounds" ∧
    Message.fromBytes [1, 2] = .ok none :=
  ⟨(message_from_partiality [0, 0, 0, 1, 9]).2.2 (by decide) (by decide),
   (message_from_partiality [0, 0, 0, 0]).2.1 (by decide),
   ((message_from_partiality [1, 2]).1).mpr (by decide)⟩
